import Mathlib

/-!
Verification of the FVG (Fair Value Gap) detection repository.

Shallow embedding of the core components:
  * `src/utils/fvg_detector.py`        — `FVGDetector` (gap detection)
  * `src/utils/mitigation_detector.py` — `MitigationDetector` (fill tracking)
  * `src/backtest/detect_engine.py`    — `DetectionEngine` (cache + orchestration)

Python floats are modelled as rationals, candle/FVG dicts as fixed-shape
structures (dict keys that may be absent become `Option` fields), exceptions as
`Except String`, and the MD5-of-JSON cache digest as an abstract hash-function
parameter.
-/

deriving instance DecidableEq for Except

namespace FVG

/-- Model of a candle or FVG Time string in the `%Y-%m-%d %H:%M:%S UTC` format:
a well-formed string is represented by the POSIX timestamp it denotes, a
malformed one by its raw text. -/
inductive TimeStr where
  | valid (ts : ℚ) : TimeStr
  | malformed (s : String) : TimeStr
deriving DecidableEq, Repr

/-- Model of `datetime.datetime.strptime(s, '%Y-%m-%d %H:%M:%S UTC').timestamp()`:
returns the timestamp of a well-formed string, raises `ValueError` on a
malformed one. -/
def strptime : TimeStr → Except String ℚ
  | .valid ts => .ok ts
  | .malformed s => .error s

/-- Candle record. `src/utils/data_loader.py` builds dicts with keys `Time`,
`Open`, `High`, `Low`, `Close`, `Volume`; `MitigationDetector.__init__` later
adds a numeric `timestamp` key, modelled as an `Option` field that is `none`
while the key is absent. -/
structure Candle where
  Time : TimeStr
  Open : ℚ
  High : ℚ
  Low : ℚ
  Close : ℚ
  Volume : ℚ
  timestamp : Option ℚ := none
deriving DecidableEq, Repr

/-- FVG record, the dict created by `FVGDetector._check_fvg_pattern` and later
mutated in place by `MitigationDetector`. The keys `first_mitigation_time` and
`last_mitigation_time` are absent until the mitigation detector writes them;
absence is modelled as `none`. -/
structure Fvg where
  type : String
  time : TimeStr
  gap_high : ℚ
  gap_low : ℚ
  gap_size : ℚ
  gap_percentage : ℚ
  middle_price : ℚ
  status : Option String := none
  mitigation_time : Option TimeStr := none
  mitigation_price : Option ℚ := none
  time_to_mitigation : Option ℚ := none
  index : ℕ := 0
  first_mitigation_time : Option TimeStr := none
  last_mitigation_time : Option TimeStr := none
deriving DecidableEq, Repr

/-! ## Gap Detector (`src/utils/fvg_detector.py`) -/

/-- Model of `FVGDetector._check_fvg_pattern(start_idx)` (lines 40-89), acting on
the window `candles[start_idx]`, `candles[start_idx+1]`, `candles[start_idx+2]`
of the newest-first candle list, i.e. `(third, middle, first)` in chronological
order. `idx` is `start_idx`; the stored `index` is `start_idx + 1`. -/
def checkFvgPattern (third middle first : Candle) (idx : ℕ) : Option Fvg :=
  if third.High < first.Low then
    let gap_size := first.Low - third.High
    some { type := "bearish", time := middle.Time,
           gap_high := first.Low, gap_low := third.High,
           gap_size := gap_size,
           gap_percentage := gap_size / third.High * 100,
           middle_price := (first.Low + third.High) / 2,
           status := some "unfilled",
           index := idx + 1 }
  else if third.Low > first.High then
    let gap_size := third.Low - first.High
    some { type := "bullish", time := middle.Time,
           gap_low := first.High, gap_high := third.Low,
           gap_size := gap_size,
           gap_percentage := gap_size / first.High * 100,
           middle_price := (third.Low + first.High) / 2,
           status := some "unfilled",
           index := idx + 1 }
  else
    none

/-- The sliding-window loop of `FVGDetector.detect_fvgs_only`
(`for i in range(len(candles) - 2)`): step `i` of this recursion handles the
window `(candles[i], candles[i+1], candles[i+2])`, exactly the windows the
source loop visits (every index it uses is in range, so the guarded
`IndexError` case never occurs). -/
def fvgWindows : ℕ → List Candle → List Fvg
  | i, third :: middle :: first :: rest =>
      (checkFvgPattern third middle first i).toList ++
        fvgWindows (i + 1) (middle :: first :: rest)
  | _, _ => []

/-- Model of `FVGDetector.detect_fvgs_only` (lines 13-38): fewer than 3 candles
yields two empty lists; otherwise each window's gap is appended to the bullish
or bearish list according to its `type`. -/
def detectFvgsOnly (candles : List Candle) : List Fvg × List Fvg :=
  if candles.length < 3 then ([], [])
  else
    let gaps := fvgWindows 0 candles
    (gaps.filter (fun g => g.type = "bullish"),
     gaps.filter (fun g => g.type ≠ "bullish"))

/-! ## Mitigation Tracker (`src/utils/mitigation_detector.py`) -/

/-- One step of the timestamp pass in `MitigationDetector.__init__`:
`candle['timestamp'] = strptime(candle['Time'], ...).timestamp()`;
a malformed Time raises. -/
def stampCandle (c : Candle) : Except String Candle :=
  match strptime c.Time with
  | .error e => .error e
  | .ok ts => .ok { c with timestamp := some ts }

/-- The timestamp loop of `MitigationDetector.__init__` over a candle list:
stops with the exception of the first malformed Time. -/
def stampAll : List Candle → Except String (List Candle)
  | [] => .ok []
  | c :: rest =>
      match stampCandle c with
      | .error e => .error e
      | .ok c' =>
          match stampAll rest with
          | .error e => .error e
          | .ok rest' => .ok (c' :: rest')

/-- Python's builtin `abs` on a float, written out so that concrete instances
reduce in the kernel; it agrees with the mathematical absolute value. -/
def pyAbs (x : ℚ) : ℚ := if x < 0 then -x else x

/-- State of a constructed `MitigationDetector`: its `self.candles` list. -/
structure MitigationDetector where
  candles : List Candle
deriving DecidableEq, Repr

/-- Model of `MitigationDetector.__init__` (lines 11-22): reverses the input
(the caller passes newest-first data, so the internal list is meant to be
chronological) and then pre-converts every `Time` to a numeric `timestamp`,
raising on the first malformed Time string. -/
def mkMitigationDetector (candles : List Candle) : Except String MitigationDetector :=
  match stampAll candles.reverse with
  | .error e => .error e
  | .ok cs => .ok ⟨cs⟩

/-- Since `list(reversed(candles))` shares the caller's dict objects, the
timestamp pass of `__init__` also mutates the candles the caller still holds,
in their original order. This definition is that caller-side view after a
successful construction. -/
def callerCandlesAfterInit (candles : List Candle) : Except String (List Candle) :=
  match stampAll candles.reverse with
  | .error e => .error e
  | .ok cs => .ok cs.reverse

/-- Lookup of `candle['timestamp']`. The mitigation detector only reads this
key on candles it stamped in `__init__`, where the key is always present, so
the default value is never observed. -/
def tsVal (c : Candle) : ℚ := c.timestamp.getD 0

/-- Model of `MitigationDetector._get_timeframe_seconds` (lines 24-28):
`abs` of the spacing of the first two internal candles (the two oldest of the
newest-first input, after the reversal in `__init__`), 0 when fewer than two. -/
def getTimeframeSeconds (d : MitigationDetector) : ℚ :=
  match d.candles with
  | c0 :: c1 :: _ => pyAbs (tsVal c0 - tsVal c1)
  | _ => 0

/-- The zone test of `check_fvg_mitigation` (lines 64-67):
bullish gaps are entered when `candle.Low ≤ gap_high`, bearish ones when
`candle.High ≥ gap_low`. -/
def priceInGap (isBullish : Bool) (fvg : Fvg) (c : Candle) : Bool :=
  if isBullish then decide (c.Low ≤ fvg.gap_high) else decide (c.High ≥ fvg.gap_low)

/-- The candle walk of `check_fvg_mitigation` (lines 59-80), with the
`in_gap_zone` and `first_mitigation_found` flags made explicit: the first
occupying candle sets `status`, `first_mitigation_time` and
`time_to_mitigation`; every occupying candle advances `last_mitigation_time`;
the first non-occupying candle after an occupied run breaks the loop. -/
def mitigationWalk (isBullish : Bool) (fct : ℚ) :
    List Candle → Bool → Bool → Fvg → Fvg
  | [], _, _, fvg => fvg
  | c :: rest, inGapZone, firstFound, fvg =>
    if priceInGap isBullish fvg c then
      let fvg1 :=
        if firstFound then fvg
        else { fvg with status := some "mitigated",
                        first_mitigation_time := some c.Time,
                        time_to_mitigation := some ((tsVal c - fct) / 3600) }
      mitigationWalk isBullish fct rest true true
        { fvg1 with last_mitigation_time := some c.Time }
    else if inGapZone then fvg
    else mitigationWalk isBullish fct rest inGapZone firstFound fvg

/-- The `if 'status' not in fvg` normalization at the top of
`check_fvg_mitigation` (lines 42-48): a record arriving without the status keys
gets them initialized. -/
def ensureStatusFields (fvg : Fvg) : Fvg :=
  if fvg.status = none then
    { fvg with status := some "unfilled", first_mitigation_time := none,
               last_mitigation_time := none, time_to_mitigation := none }
  else fvg

/-- Model of the inner `check_fvg_mitigation` helper (lines 40-80): an already
mitigated record returns untouched; otherwise the gap's formation time is
parsed (raising on a malformed string), the candles strictly after
`formation_complete_time` are selected in the detector's stored order, and the
walk updates the record. -/
def checkFvgMitigation (d : MitigationDetector) (tf : ℚ) (isBullish : Bool)
    (fvg : Fvg) : Except String Fvg :=
  let fvg := ensureStatusFields fvg
  if fvg.status = some "mitigated" then .ok fvg
  else
    match strptime fvg.time with
    | .error e => .error e
    | .ok fvgTs =>
      let fct := fvgTs + tf
      let after := d.candles.filter (fun c => decide (fct < tsVal c))
      .ok (mitigationWalk isBullish fct after false false fvg)

/-- Sequencing of a fallible check over a list (the `for fvg in ...` loops at
lines 83-87; an exception propagates out of the loop). -/
def mapExcept (f : α → Except ε β) : List α → Except ε (List β)
  | [] => .ok []
  | a :: as =>
      match f a with
      | .error e => .error e
      | .ok b =>
          match mapExcept f as with
          | .error e => .error e
          | .ok bs => .ok (b :: bs)

/-- Model of `MitigationDetector.check_mitigations` (lines 30-87): early return
leaving both lists untouched when fewer than two candles are stored, otherwise
every bullish and then every bearish record is checked. The source mutates the
records in place; the updated lists are returned here. -/
def checkMitigations (d : MitigationDetector) (bullish bearish : List Fvg) :
    Except String (List Fvg × List Fvg) :=
  if d.candles.length < 2 then .ok (bullish, bearish)
  else
    let tf := getTimeframeSeconds d
    match mapExcept (checkFvgMitigation d tf true) bullish with
    | .error e => .error e
    | .ok bull =>
        match mapExcept (checkFvgMitigation d tf false) bearish with
        | .error e => .error e
        | .ok bear => .ok (bull, bear)

/-! ## Detection Engine (`src/backtest/detect_engine.py`) -/

/-- The results dict built by `DetectionEngine.collect_all_fvgs` /
`_create_empty_results`. -/
structure CollectResult where
  bullish_fvgs : List Fvg
  bearish_fvgs : List Fvg
  total_candles : ℕ
  timeframe : String
  analysis_period : String
  collection_complete : Bool
deriving DecidableEq, Repr

/-- The `self.cache` dict of the engine. The `fvgs` slot starts as the empty
dict `{}` (falsy, exactly like an absent result) and is modelled as `none`
until `_update_cache` stores a computed result. `hashFvgs`/`hashCandles` model
`self.cache['hashes'].get(key)`. The MD5-of-JSON digest itself is an opaque
deterministic function of the stored data and is passed to the operations as an
explicit hash-function argument. -/
structure EngineCache where
  fvgs : Option CollectResult
  candlesData : List Candle
  hashFvgs : Option String
  hashCandles : Option String
  lastUpdate : Option ℚ
  cacheDuration : ℚ
deriving DecidableEq, Repr

/-- Model of `DetectionEngine._is_cache_valid` (lines 82-99) at clock value
`now`: no `last_update` or an elapsed time of at least `cache_duration` is
invalid; then, for each of the keys `fvgs` and `candles` (both always present
in `self.cache`), the freshly computed digest must equal the recorded one —
the comparison is skipped when no digest was recorded for the key. -/
def isCacheValid (hF : Option CollectResult → String) (hC : List Candle → String)
    (c : EngineCache) (now : ℚ) : Bool :=
  match c.lastUpdate with
  | none => false
  | some lu =>
    if c.cacheDuration ≤ now - lu then false
    else
      (match c.hashFvgs with
       | none => true
       | some h => decide (hF c.fvgs = h)) &&
      (match c.hashCandles with
       | none => true
       | some h => decide (hC c.candlesData = h))

/-- Model of `DetectionEngine.get_cached_results` (lines 101-116): `none` on an
invalid cache; otherwise (`'fvgs' in self.cache` always holds) the `fvgs` slot
is re-hashed and compared against `self.cache['hashes'].get('fvgs')` — a
recorded digest of `None` never equals the computed string — and the slot is
returned on a match. -/
def getCachedResults (hF : Option CollectResult → String) (hC : List Candle → String)
    (c : EngineCache) (now : ℚ) : Option CollectResult :=
  if !isCacheValid hF hC c now then none
  else
    match c.hashFvgs with
    | none => none
    | some h => if hF c.fvgs = h then c.fvgs else none

/-- The method `get_cached_results` performs no write to `self.cache`; the
post-call cache state is returned explicitly (unchanged) so that eviction
claims can be stated about it. -/
def getCachedResultsState (hF : Option CollectResult → String)
    (hC : List Candle → String) (c : EngineCache) (now : ℚ) :
    Option CollectResult × EngineCache :=
  (getCachedResults hF hC c now, c)

/-- Model of `DetectionEngine._update_cache('fvgs', data)` (lines 75-80). -/
def updateCache (hF : Option CollectResult → String) (c : EngineCache)
    (now : ℚ) (data : CollectResult) : EngineCache :=
  { c with lastUpdate := some now, fvgs := some data,
           hashFvgs := some (hF (some data)) }

/-- Model of `DetectionEngine._create_empty_results` (lines 184-193). -/
def createEmptyResults (timeframe startDate : String) : CollectResult :=
  { bullish_fvgs := [], bearish_fvgs := [], total_candles := 0,
    timeframe := timeframe,
    analysis_period := startDate ++ " to current",
    collection_complete := false }

/-- Model of `DetectionEngine._is_unique_fvg` (lines 195-202): true when no
already-accepted record matches on `time`, `gap_size` within `0.0001`, and
`type`. -/
def isUniqueFvg (fvg : Fvg) (fvgList : List Fvg) : Bool :=
  !fvgList.any (fun existing =>
    decide (existing.time = fvg.time) &&
    decide (pyAbs (existing.gap_size - fvg.gap_size) < 1 / 10000) &&
    decide (existing.type = fvg.type))

/-- Model of `temp.extend(fvg for fvg in batch if self._is_unique_fvg(fvg, temp))`
(lines 156-157): CPython's `list.extend` appends one element at a time while the
generator keeps reading the growing `temp` list, so each candidate is compared
against everything accepted before it, including earlier candidates of the same
batch. -/
def dedupExtend (acc : List Fvg) : List Fvg → List Fvg
  | [] => acc
  | f :: fs =>
      if isUniqueFvg f acc then dedupExtend (acc ++ [f]) fs
      else dedupExtend acc fs

/-- Comparison key used by `temp.sort(key=lambda x: x['time'], reverse=True)`:
the source compares the raw Time strings, and for well-formed strings of the
fixed `%Y-%m-%d %H:%M:%S UTC` format lexicographic string order agrees with
timestamp order; malformed strings are modelled as comparing by their raw text,
after all well-formed ones. -/
def timeKeyLe : TimeStr → TimeStr → Bool
  | .valid a, .valid b => decide (a ≤ b)
  | .valid _, .malformed _ => true
  | .malformed _, .valid _ => false
  | .malformed a, .malformed b => decide (a ≤ b)

/-- Stable descending sort by the `time` field (Python's `sort` is stable;
`reverse=True` keeps the original order of records with equal keys). -/
def sortByTimeDesc (l : List Fvg) : List Fvg :=
  l.mergeSort (fun a b => timeKeyLe b.time a.time)

/-- Model of `DetectionEngine.collect_all_fvgs` (lines 118-182), with the cache
state, the clock and the loaded batch as explicit inputs (the batch is what
`self._load_batch` obtained from the candle source). On a cache hit the cached
(truthy) dict is returned; an empty batch produces the explicit empty results;
otherwise the detectors run: the `MitigationDetector` is constructed before
`detect_fvgs_only` runs (so a malformed candle Time raises at construction),
each side is deduplicated with `_is_unique_fvg`, sorted newest-first by `time`,
truncated to `target_fvgs`, and mitigation-checked. The final
`_update_cache('fvgs', results)` write is modelled by `updateCache` and omitted
from the returned value, which is the results dict itself. -/
def collectAllFvgs (hF : Option CollectResult → String) (hC : List Candle → String)
    (cache : EngineCache) (now : ℚ) (timeframe startDate : String)
    (batch : List Candle) (targetFvgs : ℕ) : Except String CollectResult :=
  match getCachedResults hF hC cache now with
  | some cached => .ok cached
  | none =>
    if batch.isEmpty then .ok (createEmptyResults timeframe startDate)
    else
      let allCandles := batch
      match mkMitigationDetector allCandles with
      | .error e => .error e
      | .ok d =>
        let (bullishBatch, bearishBatch) := detectFvgsOnly allCandles
        let tempBullish := dedupExtend [] bullishBatch
        let tempBearish := dedupExtend [] bearishBatch
        let bullishFvgs := (sortByTimeDesc tempBullish).take targetFvgs
        let bearishFvgs := (sortByTimeDesc tempBearish).take targetFvgs
        match checkMitigations d bullishFvgs bearishFvgs with
        | .error e => .error e
        | .ok (bull, bear) =>
            .ok { bullish_fvgs := bull, bearish_fvgs := bear,
                  total_candles := allCandles.length,
                  timeframe := timeframe,
                  analysis_period := startDate ++ " to current",
                  collection_complete := true }

/-- Two FVG records that `_is_unique_fvg` would consider duplicates: same
`time`, same `type`, `gap_size` within `0.0001`. -/
def nearDup (a b : Fvg) : Prop :=
  a.time = b.time ∧ |a.gap_size - b.gap_size| < 1 / 10000 ∧ a.type = b.type

instance : DecidablePred fun p : Fvg × Fvg => nearDup p.1 p.2 := fun _ => by
  unfold nearDup; infer_instance

/-- Relation between a candle and its stamped version: the `Time`/`Open`/`High`/
`Low`/`Close`/`Volume` fields are untouched and only a parsed numeric
`timestamp` was added. -/
def stamped (c c' : Candle) : Prop :=
  ∃ ts, strptime c.Time = .ok ts ∧ c' = { c with timestamp := some ts }

/-- The identity of an FVG record for deduplication purposes: the fields
`_is_unique_fvg` reads and the mitigation pass never writes. -/
def dedupKey (f : Fvg) : TimeStr × ℚ × String := (f.time, f.gap_size, f.type)

/-- Parsed timestamp of a candle's Time string, defaulting for malformed ones
(used only to state ordering hypotheses about inputs). -/
def parsedTs (c : Candle) : ℚ :=
  match strptime c.Time with
  | .ok t => t
  | .error _ => 0

/-- The record update performed on the first occupying candle of the walk
(lines 70-77: status, first and last mitigation time, time to mitigation). -/
def firstHit (fct : ℚ) (c : Candle) (fvg : Fvg) : Fvg :=
  { fvg with status := some "mitigated",
             first_mitigation_time := some c.Time,
             time_to_mitigation := some ((tsVal c - fct) / 3600),
             last_mitigation_time := some c.Time }

/-- Advance of `last_mitigation_time` over a run of occupying candles: each
candle of the run overwrites the field in turn, exactly as the loop does. -/
def applyLast : List Candle → Fvg → Fvg
  | [], fvg => fvg
  | c :: b, fvg => applyLast b { fvg with last_mitigation_time := some c.Time }

/-! ## Concrete sample data for witnesses and counterexamples -/

/-- Oldest candle of the spec's mitigation example: all prices 100 at t = 0. -/
def exC100 : Candle :=
  { Time := .valid 0, Open := 100, High := 100, Low := 100, Close := 100, Volume := 0 }

/-- Middle candle of the spec's mitigation example: all prices 105 at t = 180. -/
def exC105 : Candle :=
  { Time := .valid 180, Open := 105, High := 105, Low := 105, Close := 105, Volume := 0 }

/-- Third candle of the spec's mitigation example: all prices 110 at t = 360. -/
def exC110 : Candle :=
  { Time := .valid 360, Open := 110, High := 110, Low := 110, Close := 110, Volume := 0 }

/-- Later candle of the spec's mitigation example: Low = 102 one 3-minute
period after the third candle, at t = 540. -/
def exC102 : Candle :=
  { Time := .valid 540, Open := 110, High := 110, Low := 102, Close := 110, Volume := 0 }

/-- The spec example's candle sequence, newest first as the engine passes it. -/
def exCandles : List Candle := [exC102, exC110, exC105, exC100]

/-- The bullish gap of the spec's mitigation example: [100, 105] formed at the
middle candle t = 180. -/
def exGap : Fvg :=
  { type := "bullish", time := .valid 180, gap_low := 100, gap_high := 105,
    gap_size := 5, gap_percentage := 5, middle_price := 102.5,
    status := some "unfilled" }

/-- The mitigation detector obtained from `exCandles`: the internal list is
the reversed (chronological) sequence with timestamps stamped on. -/
def exDetector : MitigationDetector :=
  ⟨[{ exC100 with timestamp := some 0 }, { exC105 with timestamp := some 180 },
    { exC110 with timestamp := some 360 }, { exC102 with timestamp := some 540 }]⟩

/-- Candle at t = 1000 whose Low 15 occupies the sample bullish zone [10, 20]. -/
def exP : Candle :=
  { Time := .valid 1000, Open := 50, High := 60, Low := 15, Close := 50, Volume := 0 }

/-- Candle at t = 2000 whose Low 50 stays above the sample zone [10, 20]. -/
def exQ : Candle :=
  { Time := .valid 2000, Open := 50, High := 60, Low := 50, Close := 50, Volume := 0 }

/-- Candle at t = 3000 whose Low 18 occupies the sample bullish zone [10, 20]. -/
def exR : Candle :=
  { Time := .valid 3000, Open := 50, High := 60, Low := 18, Close := 50, Volume := 0 }

/-- Sample bullish gap with zone [10, 20] formed at t = 0. -/
def exGapB : Fvg :=
  { type := "bullish", time := .valid 0, gap_low := 10, gap_high := 20,
    gap_size := 10, gap_percentage := 100, middle_price := 15,
    status := some "unfilled" }

/-- Detector state produced from the newest-first ordering [exR, exQ, exP]:
reversed to [exP, exQ, exR] and stamped. -/
def exD1 : MitigationDetector :=
  ⟨[{ exP with timestamp := some 1000 }, { exQ with timestamp := some 2000 },
    { exR with timestamp := some 3000 }]⟩

/-- Detector state produced from the reordering [exQ, exP, exR] of the same
candles: reversed to [exR, exP, exQ] and stamped. -/
def exD2 : MitigationDetector :=
  ⟨[{ exR with timestamp := some 3000 }, { exP with timestamp := some 1000 },
    { exQ with timestamp := some 2000 }]⟩

/-- Detector state produced from the two-candle newest-first input [exQ, exP]. -/
def exD3 : MitigationDetector :=
  ⟨[{ exP with timestamp := some 1000 }, { exQ with timestamp := some 2000 }]⟩

/-- Candle whose Time string does not parse. -/
def exBadCandle : Candle :=
  { Time := .malformed "not-a-date", Open := 1, High := 1, Low := 1, Close := 1, Volume := 0 }

/-- Well-formed candle at t = 0 with all prices 1. -/
def exOkCandle : Candle :=
  { Time := .valid 0, Open := 1, High := 1, Low := 1, Close := 1, Volume := 0 }

/-- Sample results dict for cache scenarios. -/
def exResults : CollectResult := createEmptyResults "M3" "2024-01-01"

/-- Cache holding `exResults` put at time 0 with a 60-second TTL and digest
recorded as the string d1. -/
def exStaleCache : EngineCache :=
  { fvgs := some exResults, candlesData := [], hashFvgs := some "d1",
    hashCandles := none, lastUpdate := some 0, cacheDuration := 60 }

/-- Hash function under which `exStaleCache`'s recorded digest is still
correct, so that only TTL expiry invalidates it. -/
def exHashF : Option CollectResult → String := fun _ => "d1"

/-- Hash function for the candles slot of the sample caches. -/
def exHashC : List Candle → String := fun _ => "d1"

/-- A freshly initialized cache: no entry, no digests, no last update. -/
def exInitCache : EngineCache :=
  { fvgs := none, candlesData := [], hashFvgs := none,
    hashCandles := none, lastUpdate := none, cacheDuration := 60 }

/-! ## Helper lemmas -/

theorem pyAbs_eq_abs (x : ℚ) : pyAbs x = |x| := by
  unfold pyAbs
  by_cases h : x < 0
  · simp [h, abs_of_neg h]
  · simp [h, abs_of_nonneg (le_of_not_lt h)]

theorem stampCandle_ok {c c' : Candle} (h : stampCandle c = .ok c') : stamped c c' := by
  unfold stampCandle at h
  cases hs : strptime c.Time with
  | error e => rw [hs] at h; cases h
  | ok ts =>
      rw [hs] at h
      injection h with h
      exact ⟨ts, hs, h.symm⟩

theorem stampAll_ok_forall₂ : ∀ {l l' : List Candle}, stampAll l = .ok l' →
    List.Forall₂ stamped l l'
  | [], _, h => by
      unfold stampAll at h
      injection h with h
      rw [← h]
      exact .nil
  | c :: rest, l', h => by
      unfold stampAll at h
      cases hc : stampCandle c with
      | error e => rw [hc] at h; cases h
      | ok c' =>
          rw [hc] at h
          cases hr : stampAll rest with
          | error e => rw [hr] at h; cases h
          | ok rest' =>
              rw [hr] at h
              injection h with h
              rw [← h]
              exact .cons (stampCandle_ok hc) (stampAll_ok_forall₂ hr)

theorem stampAll_error_of_malformed : ∀ {l : List Candle},
    (∃ c ∈ l, ∃ s, c.Time = .malformed s) → ∃ e, stampAll l = .error e
  | [], h => absurd h (by simp)
  | c :: rest, h => by
      unfold stampAll
      cases hc : stampCandle c with
      | error e => exact ⟨e, rfl⟩
      | ok c' =>
          have hrest : ∃ x ∈ rest, ∃ s, x.Time = .malformed s := by
            rcases h with ⟨x, hx, s, hs⟩
            rcases List.mem_cons.mp hx with rfl | hmem
            · simp [stampCandle, hs, strptime] at hc
            · exact ⟨x, hmem, s, hs⟩
          obtain ⟨e, he⟩ := stampAll_error_of_malformed hrest
          rw [he]
          exact ⟨e, rfl⟩

theorem mapExcept_ok_forall₂ {α β ε : Type _} {f : α → Except ε β} :
    ∀ {l : List α} {l' : List β}, mapExcept f l = .ok l' →
      List.Forall₂ (fun a b => f a = .ok b) l l'
  | [], _, h => by
      unfold mapExcept at h
      injection h with h
      rw [← h]
      exact .nil
  | a :: as, l', h => by
      unfold mapExcept at h
      cases ha : f a with
      | error e => rw [ha] at h; cases h
      | ok b =>
          rw [ha] at h
          cases hr : mapExcept f as with
          | error e => rw [hr] at h; cases h
          | ok bs =>
              rw [hr] at h
              injection h with h
              rw [← h]
              exact .cons ha (mapExcept_ok_forall₂ hr)

theorem ensureStatusFields_of_some {fvg : Fvg} {s : String} (h : fvg.status = some s) :
    ensureStatusFields fvg = fvg := by
  simp [ensureStatusFields, h]

theorem ensureStatusFields_dedupKey (fvg : Fvg) :
    dedupKey (ensureStatusFields fvg) = dedupKey fvg := by
  unfold ensureStatusFields
  split <;> rfl

theorem checkFvgMitigation_mitigated (d : MitigationDetector) (tf : ℚ) (isB : Bool)
    {fvg : Fvg} (h : fvg.status = some "mitigated") :
    checkFvgMitigation d tf isB fvg = .ok fvg := by
  unfold checkFvgMitigation
  rw [ensureStatusFields_of_some h, if_pos h]

/-! ## Claim C5 -/

/-- C5: a gap record whose status is already mitigated is left wholly unchanged
by any subsequent `check_mitigations` call over any candle sequence — in
particular its status never reverts to unfilled and its
`first_mitigation_time` and `time_to_mitigation` are not rewritten. Part one
states it for the per-record helper, part two for the full call (each record
of the output lists with mitigated input status equals its input record). -/
theorem checkMitigations_mitigated_unchanged :
    (∀ (d : MitigationDetector) (tf : ℚ) (isB : Bool) (fvg : Fvg),
      fvg.status = some "mitigated" → checkFvgMitigation d tf isB fvg = .ok fvg) ∧
    (∀ (d : MitigationDetector) (bullish bearish bull bear : List Fvg),
      checkMitigations d bullish bearish = .ok (bull, bear) →
      List.Forall₂ (fun x y => x.status = some "mitigated" → y = x) bullish bull ∧
      List.Forall₂ (fun x y => x.status = some "mitigated" → y = x) bearish bear) := by
  constructor
  · intro d tf isB fvg h
    exact checkFvgMitigation_mitigated d tf isB h
  · intro d bullish bearish bull bear h
    unfold checkMitigations at h
    by_cases hlen : d.candles.length < 2
    · rw [if_pos hlen] at h
      injection h with h
      have h1 : bullish = bull := congrArg Prod.fst h
      have h2 : bearish = bear := congrArg Prod.snd h
      rw [← h1, ← h2]
      constructor <;>
        exact List.forall₂_same.mpr (fun x _ h => rfl)
    · rw [if_neg hlen] at h
      simp only [] at h
      cases hb : mapExcept (checkFvgMitigation d (getTimeframeSeconds d) true) bullish with
      | error e => rw [hb] at h; cases h
      | ok bull' =>
          rw [hb] at h
          cases hr : mapExcept (checkFvgMitigation d (getTimeframeSeconds d) false) bearish with
          | error e => rw [hr] at h; cases h
          | ok bear' =>
              rw [hr] at h
              injection h with h
              have h1 : bull' = bull := congrArg Prod.fst h
              have h2 : bear' = bear := congrArg Prod.snd h
              rw [← h1, ← h2]
              constructor
              · exact (mapExcept_ok_forall₂ hb).imp (fun a b hfa hst => by
                  rw [checkFvgMitigation_mitigated _ _ _ hst] at hfa
                  injection hfa with hfa
                  exact hfa.symm)
              · exact (mapExcept_ok_forall₂ hr).imp (fun a b hfa hst => by
                  rw [checkFvgMitigation_mitigated _ _ _ hst] at hfa
                  injection hfa with hfa
                  exact hfa.symm)

/-- Witness for C5: a concrete already-mitigated gap run through a concrete
two-candle tracker comes back unchanged. -/
theorem checkMitigations_mitigated_unchanged_witness :
    checkFvgMitigation ⟨[exOkCandle, exOkCandle]⟩ 60 true
      { exGap with status := some "mitigated" } =
      .ok { exGap with status := some "mitigated" } :=
  checkMitigations_mitigated_unchanged.1 ⟨[exOkCandle, exOkCandle]⟩ 60 true
    { exGap with status := some "mitigated" } rfl

/-! ## Claim C6 -/

/-- C6: when the candle source returns an empty batch (the source is only
consulted when the cache lookup yields nothing), `collect_all_fvgs` returns —
without raising — the explicit empty results dict: `collection_complete` is
false, both gap lists are empty and `total_candles` is 0. -/
theorem collectAllFvgs_empty_batch_empty_results
    (hF : Option CollectResult → String) (hC : List Candle → String)
    (cache : EngineCache) (now : ℚ) (tf sd : String) (target : ℕ)
    (hmiss : getCachedResults hF hC cache now = none) :
    collectAllFvgs hF hC cache now tf sd [] target = .ok (createEmptyResults tf sd) ∧
    (createEmptyResults tf sd).collection_complete = false ∧
    (createEmptyResults tf sd).bullish_fvgs = [] ∧
    (createEmptyResults tf sd).bearish_fvgs = [] ∧
    (createEmptyResults tf sd).total_candles = 0 := by
  refine ⟨?_, rfl, rfl, rfl, rfl⟩
  unfold collectAllFvgs
  rw [hmiss]
  rfl

/-- Witness for C6 on a freshly initialized engine cache. -/
theorem collectAllFvgs_empty_batch_empty_results_witness :
    collectAllFvgs exHashF exHashC exInitCache 0 "M3" "2024-01-01" [] 20 =
      .ok (createEmptyResults "M3" "2024-01-01") :=
  (collectAllFvgs_empty_batch_empty_results exHashF exHashC exInitCache 0
    "M3" "2024-01-01" 20 rfl).1

/-! ## Claim C7 -/

/-- Counterexample for C7: on a sequence containing one candle with a
malformed Time string, constructing the `MitigationDetector` raises (the
`strptime` in `__init__` has no handler), so the offending candle is not
skipped and no detector is produced for the remaining candles. -/
theorem mkMitigationDetector_malformed_not_skipped :
    mkMitigationDetector [exOkCandle, exBadCandle] = .error "not-a-date" ∧
    ∀ d, mkMitigationDetector [exOkCandle, exBadCandle] ≠ .ok d := by
  refine ⟨rfl, ?_⟩
  intro d h
  rw [show mkMitigationDetector [exOkCandle, exBadCandle] = .error "not-a-date" from rfl] at h
  cases h

/-- C7 as amended: any candle sequence containing a malformed Time string
makes `MitigationDetector.__init__` raise, aborting the detection cycle
instead of skipping the offending candle. -/
theorem mkMitigationDetector_malformed_raises (cs : List Candle)
    (h : ∃ c ∈ cs, ∃ s, c.Time = .malformed s) :
    ∃ e, mkMitigationDetector cs = .error e := by
  have hrev : ∃ c ∈ cs.reverse, ∃ s, c.Time = .malformed s := by
    rcases h with ⟨c, hc, s, hs⟩
    exact ⟨c, List.mem_reverse.mpr hc, s, hs⟩
  obtain ⟨e, he⟩ := stampAll_error_of_malformed hrev
  refine ⟨e, ?_⟩
  unfold mkMitigationDetector
  rw [he]

/-- Witness for the amended C7 at a concrete malformed sequence. -/
theorem mkMitigationDetector_malformed_raises_witness :
    (∃ c ∈ [exOkCandle, exBadCandle], ∃ s, c.Time = .malformed s) ∧
    ∃ e, mkMitigationDetector [exOkCandle, exBadCandle] = .error e :=
  ⟨⟨exBadCandle, List.mem_cons_of_mem _ (List.mem_cons_self _ _), "not-a-date", rfl⟩,
   mkMitigationDetector_malformed_raises _
     ⟨exBadCandle, List.mem_cons_of_mem _ (List.mem_cons_self _ _), "not-a-date", rfl⟩⟩

/-! ## Claim C10 -/

/-- C10: a successful `MitigationDetector.__init__` adds a parsed numeric
`timestamp` field to every candle record the caller passed (the reversed
internal list shares the caller's dict objects, so the internal list is the
reverse of the caller's updated list) and leaves every other candle field
unchanged. -/
theorem callerCandlesAfterInit_adds_timestamp_only (cs cs' : List Candle)
    (h : callerCandlesAfterInit cs = .ok cs') :
    mkMitigationDetector cs = .ok ⟨cs'.reverse⟩ ∧
    List.Forall₂ stamped cs cs' := by
  unfold callerCandlesAfterInit at h
  cases hs : stampAll cs.reverse with
  | error e => rw [hs] at h; cases h
  | ok r =>
      rw [hs] at h
      injection h with h
      constructor
      · unfold mkMitigationDetector
        rw [hs, ← h, List.reverse_reverse]
      · have hf : List.Forall₂ stamped cs.reverse r := stampAll_ok_forall₂ hs
        rw [← h]
        have hf' : List.Forall₂ stamped cs.reverse r.reverse.reverse := by
          rw [List.reverse_reverse]
          exact hf
        exact List.forall₂_reverse_iff.mp hf'

/-- Witness for C10 at a concrete two-candle sequence. -/
theorem callerCandlesAfterInit_adds_timestamp_only_witness :
    callerCandlesAfterInit [exC102, exC100] =
      .ok [{ exC102 with timestamp := some 540 }, { exC100 with timestamp := some 0 }] ∧
    mkMitigationDetector [exC102, exC100] =
      .ok ⟨[{ exC100 with timestamp := some 0 }, { exC102 with timestamp := some 540 }]⟩ ∧
    List.Forall₂ stamped [exC102, exC100]
      [{ exC102 with timestamp := some 540 }, { exC100 with timestamp := some 0 }] := by
  have h : callerCandlesAfterInit [exC102, exC100] =
      .ok [{ exC102 with timestamp := some 540 }, { exC100 with timestamp := some 0 }] := rfl
  have hmain := callerCandlesAfterInit_adds_timestamp_only _ _ h
  exact ⟨h, hmain.1, hmain.2⟩

/-! ## Claim C1 -/

/-- Counterexample for C1: on an entry that is invalid (its age 100 reaches the
60-second TTL), `get_cached_results` returns absent but performs no eviction —
the post-call cache still contains the entry, contradicting the claim that the
entry is removed from the cache. -/
theorem getCachedResults_stale_entry_not_evicted :
    exStaleCache.lastUpdate = some 0 ∧
    exStaleCache.cacheDuration ≤ 100 - 0 ∧
    (getCachedResultsState exHashF exHashC exStaleCache 100).1 = none ∧
    (getCachedResultsState exHashF exHashC exStaleCache 100).2 = exStaleCache ∧
    (getCachedResultsState exHashF exHashC exStaleCache 100).2.fvgs = some exResults := by
  have hvalid : isCacheValid exHashF exHashC exStaleCache 100 = false := by
    unfold isCacheValid exStaleCache
    dsimp only
    rw [if_pos (by norm_num)]
  refine ⟨rfl, by norm_num [exStaleCache], ?_, rfl, rfl⟩
  unfold getCachedResultsState getCachedResults
  rw [hvalid]
  rfl

/-- C1 as amended: a call to `get` on an invalid or corrupted entry (age at
least the TTL, or stored digest no longer matching the recorded one) returns
absent and raises no exception, but does not remove the entry: the cache is
left unchanged, and every subsequent `get` at the same or a later time also
returns absent. -/
theorem getCachedResults_invalid_absent_persistent
    (hF : Option CollectResult → String) (hC : List Candle → String)
    (c : EngineCache) (t lu : ℚ)
    (hlu : c.lastUpdate = some lu)
    (hinv : c.cacheDuration ≤ t - lu ∨ c.hashFvgs ≠ some (hF c.fvgs)) :
    getCachedResultsState hF hC c t = (none, c) ∧
    ∀ t', t ≤ t' → getCachedResults hF hC c t' = none := by
  have key : ∀ t', t ≤ t' → getCachedResults hF hC c t' = none := by
    intro t' ht'
    rcases hinv with hage | hmis
    · have hage' : c.cacheDuration ≤ t' - lu := le_trans hage (by linarith)
      have hvalid : isCacheValid hF hC c t' = false := by
        unfold isCacheValid
        rw [hlu]
        dsimp only
        rw [if_pos hage']
      unfold getCachedResults
      rw [hvalid]
      rfl
    · cases hmf : c.hashFvgs with
      | none =>
          unfold getCachedResults
          rw [hmf]
          dsimp only
          simp
      | some hv =>
          have hne : ¬ (hF c.fvgs = hv) := fun hh => hmis (by rw [hmf, hh])
          have hvalid : isCacheValid hF hC c t' = false := by
            unfold isCacheValid
            rw [hlu]
            dsimp only
            by_cases hd : c.cacheDuration ≤ t' - lu
            · rw [if_pos hd]
            · rw [if_neg hd, hmf]
              dsimp only
              simp [hne]
          unfold getCachedResults
          rw [hvalid]
          rfl
  refine ⟨?_, key⟩
  have h0 := key t le_rfl
  simp [getCachedResultsState, h0]

/-- Witness for the amended C1 on the concrete stale cache entry. -/
theorem getCachedResults_invalid_absent_persistent_witness :
    getCachedResultsState exHashF exHashC exStaleCache 100 = (none, exStaleCache) ∧
    ∀ t', (100 : ℚ) ≤ t' → getCachedResults exHashF exHashC exStaleCache t' = none :=
  getCachedResults_invalid_absent_persistent exHashF exHashC exStaleCache 100 0
    rfl (Or.inl (by norm_num [exStaleCache]))

/-! ## Walk lemmas for the mitigation loop -/

theorem priceInGap_set_last (isB : Bool) (fvg : Fvg) (t : Option TimeStr) (c : Candle) :
    priceInGap isB { fvg with last_mitigation_time := t } c = priceInGap isB fvg c := rfl

theorem priceInGap_firstHit (isB : Bool) (fct : ℚ) (cd : Candle) (fvg : Fvg) (c : Candle) :
    priceInGap isB (firstHit fct cd fvg) c = priceInGap isB fvg c := rfl

theorem priceInGap_applyLast (isB : Bool) :
    ∀ (b : List Candle) (g : Fvg) (c : Candle),
      priceInGap isB (applyLast b g) c = priceInGap isB g c
  | [], _, _ => rfl
  | y :: ys, g, c => by
      rw [show applyLast (y :: ys) g
            = applyLast ys { g with last_mitigation_time := some y.Time } from rfl,
          priceInGap_applyLast isB ys _ c, priceInGap_set_last]

theorem mitigationWalk_skip {isB : Bool} {fct : ℚ} {fvg : Fvg} :
    ∀ (a : List Candle) (l : List Candle) (ff : Bool),
      (∀ x ∈ a, priceInGap isB fvg x = false) →
      mitigationWalk isB fct (a ++ l) false ff fvg = mitigationWalk isB fct l false ff fvg
  | [], _, _, _ => rfl
  | x :: a', l, ff, h => by
      have hx : priceInGap isB fvg x = false := h x (List.mem_cons_self x a')
      have ih := @mitigationWalk_skip isB fct fvg a' l ff
        (fun y hy => h y (List.mem_cons_of_mem x hy))
      rw [List.cons_append]
      simp only [mitigationWalk, hx]
      simpa using ih

theorem mitigationWalk_break {isB : Bool} {fct : ℚ} {fvg : Fvg} {x : Candle}
    (rest : List Candle) (hx : priceInGap isB fvg x = false) :
    mitigationWalk isB fct (x :: rest) true true fvg = fvg := by
  simp [mitigationWalk, hx]

theorem mitigationWalk_first {isB : Bool} {fct : ℚ} {fvg : Fvg} {c : Candle}
    (l : List Candle) (hc : priceInGap isB fvg c = true) :
    mitigationWalk isB fct (c :: l) false false fvg =
      mitigationWalk isB fct l true true (firstHit fct c fvg) := by
  simp [mitigationWalk, hc, firstHit]

theorem mitigationWalk_run {isB : Bool} {fct : ℚ} :
    ∀ (b : List Candle) (tail : List Candle) (fvg : Fvg),
      (∀ y ∈ b, priceInGap isB fvg y = true) →
      mitigationWalk isB fct (b ++ tail) true true fvg =
        mitigationWalk isB fct tail true true (applyLast b fvg)
  | [], tail, fvg, _ => by rw [List.nil_append]; rfl
  | c :: b', tail, fvg, h => by
      have hc : priceInGap isB fvg c = true := h c (List.mem_cons_self c b')
      have hb' : ∀ y ∈ b',
          priceInGap isB { fvg with last_mitigation_time := some c.Time } y = true := by
        intro y hy
        rw [priceInGap_set_last]
        exact h y (List.mem_cons_of_mem c hy)
      calc mitigationWalk isB fct ((c :: b') ++ tail) true true fvg
          = mitigationWalk isB fct (b' ++ tail) true true
              { fvg with last_mitigation_time := some c.Time } := by
            rw [List.cons_append]
            simp [mitigationWalk, hc]
        _ = mitigationWalk isB fct tail true true
              (applyLast b' { fvg with last_mitigation_time := some c.Time }) :=
            mitigationWalk_run b' tail _ hb'
        _ = mitigationWalk isB fct tail true true (applyLast (c :: b') fvg) := rfl

theorem mitigationWalk_tt_fields {isB : Bool} {fct : ℚ} :
    ∀ (l : List Candle) (fvg : Fvg),
      (mitigationWalk isB fct l true true fvg).status = fvg.status ∧
      (mitigationWalk isB fct l true true fvg).first_mitigation_time =
        fvg.first_mitigation_time ∧
      (mitigationWalk isB fct l true true fvg).time_to_mitigation =
        fvg.time_to_mitigation
  | [], fvg => ⟨rfl, rfl, rfl⟩
  | c :: l', fvg => by
      cases hc : priceInGap isB fvg c with
      | true =>
          have ih := @mitigationWalk_tt_fields isB fct l'
            { fvg with last_mitigation_time := some c.Time }
          simpa [mitigationWalk, hc] using ih
      | false => simp [mitigationWalk, hc]

theorem applyLast_last (b : List Candle) : ∀ (g : Fvg) (hb : b ≠ []),
    (applyLast b g).last_mitigation_time = some ((b.getLast hb).Time) := by
  induction b with
  | nil => intro g hb; exact absurd rfl hb
  | cons y ys ih =>
      intro g hb
      cases ys with
      | nil =>
          rw [List.getLast_singleton]
          rfl
      | cons z zs =>
          rw [List.getLast_cons_cons,
              show applyLast (y :: z :: zs) g
                = applyLast (z :: zs) { g with last_mitigation_time := some y.Time } from rfl]
          exact ih _ (List.cons_ne_nil z zs)

theorem checkFvgMitigation_unfilled {d : MitigationDetector} {tf : ℚ} {isB : Bool}
    {fvg : Fvg} {t0 : ℚ}
    (hne : fvg.status ≠ none) (hnm : fvg.status ≠ some "mitigated")
    (hts : strptime fvg.time = .ok t0) :
    checkFvgMitigation d tf isB fvg =
      .ok (mitigationWalk isB (t0 + tf)
        (d.candles.filter (fun c => decide (t0 + tf < tsVal c))) false false fvg) := by
  have hens : ensureStatusFields fvg = fvg := by
    unfold ensureStatusFields
    rw [if_neg hne]
  unfold checkFvgMitigation
  rw [hens, if_neg hnm, hts]

/-! ## Claim C3 -/

/-- C3: the mitigation tracker computes the timeframe as the spacing of the
first two internal (i.e. oldest, after the reversal in `__init__`) candles;
for an unfilled gap it considers exactly the candles strictly after
`formation_complete = parsed formedAt + timeframeSeconds`, and on the first
occupying one sets status mitigated, `first_mitigation_time` to that candle's
Time and `time_to_mitigation` to (timestamp − formation_complete) / 3600 hours.
On the spec's concrete example ((100,100,100,100)@0s, (105..)@180s,
(110..)@360s, then Low 102 at 540s, bullish gap [100,105] formed at 180s) the
gap becomes mitigated with 0.05 hours to mitigation. -/
theorem checkFvgMitigation_first_occupier_spec :
    (∀ (c0 c1 : Candle) (rest : List Candle),
      getTimeframeSeconds ⟨c0 :: c1 :: rest⟩ = pyAbs (tsVal c0 - tsVal c1)) ∧
    (∀ (d : MitigationDetector) (tf : ℚ) (isB : Bool) (fvg : Fvg) (t0 : ℚ)
       (pre rest : List Candle) (c : Candle),
      fvg.status = some "unfilled" →
      strptime fvg.time = .ok t0 →
      d.candles.filter (fun cd => decide (t0 + tf < tsVal cd)) = pre ++ c :: rest →
      (∀ x ∈ pre, priceInGap isB fvg x = false) →
      priceInGap isB fvg c = true →
      ∃ fvg', checkFvgMitigation d tf isB fvg = .ok fvg' ∧
        fvg'.status = some "mitigated" ∧
        fvg'.first_mitigation_time = some c.Time ∧
        fvg'.time_to_mitigation = some ((tsVal c - (t0 + tf)) / 3600)) ∧
    (mkMitigationDetector exCandles = .ok exDetector ∧
     checkMitigations exDetector [exGap] [] =
       .ok ([{ exGap with
               status := some "mitigated",
               first_mitigation_time := some (.valid 540),
               last_mitigation_time := some (.valid 540),
               time_to_mitigation := some (0.05 : ℚ) }], [])) := by
  refine ⟨fun c0 c1 _ => rfl, ?_, rfl, ?_⟩
  · intro d tf isB fvg t0 pre rest c hst hts hfilter hpre hc
    have hne : fvg.status ≠ none := by rw [hst]; simp
    have hnm : fvg.status ≠ some "mitigated" := by rw [hst]; simp
    refine ⟨_, checkFvgMitigation_unfilled hne hnm hts, ?_⟩
    rw [hfilter, mitigationWalk_skip pre (c :: rest) false hpre, mitigationWalk_first rest hc]
    obtain ⟨h1, h2, h3⟩ := mitigationWalk_tt_fields rest (firstHit (t0 + tf) c fvg)
    exact ⟨h1, h2, h3⟩
  · show checkMitigations exDetector [exGap] [] = _
    simp only [checkMitigations, exDetector, exC100, exC102, exC105, exC110, exGap,
      mapExcept, checkFvgMitigation, ensureStatusFields, strptime, getTimeframeSeconds,
      tsVal, pyAbs, mitigationWalk, priceInGap, List.filter, List.length_cons,
      List.length_nil]
    norm_num [mitigationWalk, priceInGap, tsVal]
    simp

/-- Witness for C3's general clause: the first-occupier property applied to the
spec example's detector and gap, where the only candle strictly after
formation-complete (t = 360) is the Low-102 candle at t = 540. -/
theorem checkFvgMitigation_first_occupier_spec_witness :
    ∃ fvg', checkFvgMitigation exDetector 180 true exGap = .ok fvg' ∧
      fvg'.status = some "mitigated" ∧
      fvg'.first_mitigation_time = some (({ exC102 with timestamp := some 540 } : Candle).Time) ∧
      fvg'.time_to_mitigation =
        some ((tsVal { exC102 with timestamp := some 540 } - (180 + 180)) / 3600) := by
  have hfilter : exDetector.candles.filter (fun cd => decide ((180 : ℚ) + 180 < tsVal cd)) =
      [] ++ ({ exC102 with timestamp := some 540 } : Candle) :: [] := by
    norm_num [exDetector, exC100, exC105, exC110, exC102, tsVal, List.filter]
  exact checkFvgMitigation_first_occupier_spec.2.1 exDetector 180 true exGap 180
    [] [] { exC102 with timestamp := some 540 } rfl rfl hfilter (by simp) (by decide)

/-! ## Claim C4 -/

/-- C4: once a first occupying candle is found, `last_mitigation_time` is
advanced across the contiguous occupied run and the walk breaks at the first
non-occupying candle after the run: the walk's result does not depend on
anything after that break point, and `last_mitigation_time` equals the Time of
the last candle of the first contiguous occupied run. -/
theorem mitigationWalk_contiguous_run_semantics (isB : Bool) (fct : ℚ) (fvg : Fvg)
    (a b' rest : List Candle) (c x : Candle)
    (ha : ∀ y ∈ a, priceInGap isB fvg y = false)
    (hc : priceInGap isB fvg c = true)
    (hb : ∀ y ∈ b', priceInGap isB fvg y = true)
    (hx : priceInGap isB fvg x = false) :
    mitigationWalk isB fct (a ++ (c :: b') ++ x :: rest) false false fvg =
      mitigationWalk isB fct (a ++ (c :: b')) false false fvg ∧
    (mitigationWalk isB fct (a ++ (c :: b') ++ x :: rest) false false fvg).last_mitigation_time =
      some (((c :: b').getLast (List.cons_ne_nil c b')).Time) := by
  have hbF : ∀ y ∈ b', priceInGap isB (firstHit fct c fvg) y = true := by
    intro y hy
    rw [priceInGap_firstHit]
    exact hb y hy
  have hxF : priceInGap isB (applyLast b' (firstHit fct c fvg)) x = false := by
    rw [priceInGap_applyLast, priceInGap_firstHit]
    exact hx
  have lhs_eq : mitigationWalk isB fct (a ++ (c :: b') ++ x :: rest) false false fvg =
      applyLast b' (firstHit fct c fvg) := by
    rw [List.append_assoc, mitigationWalk_skip a ((c :: b') ++ x :: rest) false ha,
        List.cons_append, mitigationWalk_first _ hc, mitigationWalk_run b' (x :: rest) _ hbF]
    exact mitigationWalk_break rest hxF
  have rhs_eq : mitigationWalk isB fct (a ++ (c :: b')) false false fvg =
      applyLast b' (firstHit fct c fvg) := by
    rw [mitigationWalk_skip a (c :: b') false ha, mitigationWalk_first b' hc]
    have h2 := @mitigationWalk_run isB fct b' [] (firstHit fct c fvg) hbF
    rw [List.append_nil] at h2
    rw [h2]
    rfl
  refine ⟨by rw [lhs_eq, rhs_eq], ?_⟩
  rw [lhs_eq]
  cases b' with
  | nil =>
      rw [List.getLast_singleton]
      rfl
  | cons y ys =>
      rw [show applyLast (y :: ys) (firstHit fct c fvg)
            = applyLast ys { (firstHit fct c fvg) with
                             last_mitigation_time := some y.Time } from rfl]
      cases ys with
      | nil =>
          rw [List.getLast_cons_cons, List.getLast_singleton]
          rfl
      | cons z zs =>
          rw [applyLast_last (z :: zs) _ (List.cons_ne_nil z zs),
              List.getLast_cons_cons, List.getLast_cons_cons]

/-- Witness for C4: a concrete walk with one leading non-occupying candle, a
two-candle occupied run, then a non-occupying candle followed by a further
occupying one that must be ignored. -/
theorem mitigationWalk_contiguous_run_semantics_witness :
    mitigationWalk true 0 ([exQ] ++ (exP :: [exR]) ++ exQ :: [exP]) false false exGapB =
      mitigationWalk true 0 ([exQ] ++ (exP :: [exR])) false false exGapB ∧
    (mitigationWalk true 0 ([exQ] ++ (exP :: [exR]) ++ exQ :: [exP]) false false
      exGapB).last_mitigation_time =
      some (((exP :: [exR]).getLast (List.cons_ne_nil exP [exR])).Time) :=
  mitigationWalk_contiguous_run_semantics true 0 exGapB [exQ] [exR] [exP] exP exQ
    (by decide) (by decide) (by decide) (by decide)

/-! ## Claim C2 -/

/-- C2: for a window (third, middle, first in chronological order; the list is
stored newest-first, so the window at index i is candles[i], candles[i+1],
candles[i+2]) of well-formed candles (Low ≤ High, and a positive reference
price — on a zero reference the Python division would raise instead of
emitting a gap), `_check_fvg_pattern` emits exactly one bearish gap
[third.High, first.Low] with percentage denominator third.High when
third.High < first.Low; exactly one bullish gap [first.High, third.Low] with
denominator first.High when third.Low > first.High; and no gap when neither
holds. The final conjunct records that `detect_fvgs_only`'s sliding pass
applies exactly this window function at each position. -/
theorem checkFvgPattern_window_characterization
    (third middle first : Candle) (i : ℕ) (rest : List Candle)
    (hT : third.Low ≤ third.High) (hF : first.Low ≤ first.High)
    (hTpos : 0 < third.High) (hFpos : 0 < first.High) :
    (third.High < first.Low →
      checkFvgPattern third middle first i =
        some { type := "bearish", time := middle.Time,
               gap_high := first.Low, gap_low := third.High,
               gap_size := first.Low - third.High,
               gap_percentage := (first.Low - third.High) / third.High * 100,
               middle_price := (first.Low + third.High) / 2,
               status := some "unfilled", index := i + 1 }) ∧
    (first.High < third.Low →
      checkFvgPattern third middle first i =
        some { type := "bullish", time := middle.Time,
               gap_low := first.High, gap_high := third.Low,
               gap_size := third.Low - first.High,
               gap_percentage := (third.Low - first.High) / first.High * 100,
               middle_price := (third.Low + first.High) / 2,
               status := some "unfilled", index := i + 1 }) ∧
    (¬ third.High < first.Low → ¬ first.High < third.Low →
      checkFvgPattern third middle first i = none) ∧
    fvgWindows i (third :: middle :: first :: rest) =
      (checkFvgPattern third middle first i).toList ++
        fvgWindows (i + 1) (middle :: first :: rest) := by
  refine ⟨?_, ?_, ?_, rfl⟩
  · intro hbear
    unfold checkFvgPattern
    rw [if_pos hbear]
  · intro hbull
    have hnb : ¬ third.High < first.Low := by
      intro hcon
      linarith
    unfold checkFvgPattern
    rw [if_neg hnb, if_pos hbull]
  · intro h1 h2
    unfold checkFvgPattern
    rw [if_neg h1, if_neg h2]

/-- Witness for C2: a concrete bearish window (third candle all-1, first candle
all-100) produces exactly the stated bearish gap. -/
theorem checkFvgPattern_window_characterization_witness :
    checkFvgPattern exOkCandle exC105 exC100 0 =
      some { type := "bearish", time := exC105.Time,
             gap_high := exC100.Low, gap_low := exOkCandle.High,
             gap_size := exC100.Low - exOkCandle.High,
             gap_percentage := (exC100.Low - exOkCandle.High) / exOkCandle.High * 100,
             middle_price := (exC100.Low + exOkCandle.High) / 2,
             status := some "unfilled", index := 1 } :=
  (checkFvgPattern_window_characterization exOkCandle exC105 exC100 0 []
    (by decide) (by decide) (by decide) (by decide)).1 (by decide)

/-! ## Claim C8 -/

theorem forall₂_stamped_map_ts {l l' : List Candle}
    (h : List.Forall₂ stamped l l') : l'.map tsVal = l.map parsedTs := by
  induction h with
  | nil => rfl
  | cons hcc htail ih =>
      obtain ⟨ts, hok, hrec⟩ := hcc
      rw [List.map_cons, List.map_cons, ih, hrec]
      simp [tsVal, parsedTs, hok]

/-- Counterexample for C8: the same multiset of three candles in two different
orders produces different mitigation fields on the same gap — the tracker only
reverses its input (assuming newest-first), it does not sort, so both the
timeframe computed from the first two internal candles and the walking order
change with the input ordering. Here `time_to_mitigation` comes out 5/9 hours
in one ordering and 5/18 in the other. -/
theorem checkMitigations_order_dependent :
    ([exR, exQ, exP] : List Candle).Perm [exQ, exP, exR] ∧
    mkMitigationDetector [exR, exQ, exP] = .ok exD1 ∧
    mkMitigationDetector [exQ, exP, exR] = .ok exD2 ∧
    checkMitigations exD1 [exGapB] [] =
      .ok ([{ exGapB with
              status := some "mitigated",
              first_mitigation_time := some (.valid 3000),
              last_mitigation_time := some (.valid 3000),
              time_to_mitigation := some (5 / 9 : ℚ) }], []) ∧
    checkMitigations exD2 [exGapB] [] =
      .ok ([{ exGapB with
              status := some "mitigated",
              first_mitigation_time := some (.valid 3000),
              last_mitigation_time := some (.valid 3000),
              time_to_mitigation := some (5 / 18 : ℚ) }], []) ∧
    (5 / 9 : ℚ) ≠ 5 / 18 := by
  refine ⟨by decide, rfl, rfl, ?_, ?_, by norm_num⟩
  · simp only [checkMitigations, exD1, exP, exQ, exR, exGapB,
      mapExcept, checkFvgMitigation, ensureStatusFields, strptime, getTimeframeSeconds,
      tsVal, pyAbs, mitigationWalk, priceInGap, List.filter, List.length_cons,
      List.length_nil]
    norm_num [mitigationWalk, priceInGap, tsVal]
    simp
  · simp only [checkMitigations, exD2, exP, exQ, exR, exGapB,
      mapExcept, checkFvgMitigation, ensureStatusFields, strptime, getTimeframeSeconds,
      tsVal, pyAbs, mitigationWalk, priceInGap, List.filter, List.length_cons,
      List.length_nil]
    norm_num [mitigationWalk, priceInGap, tsVal]
    simp

/-- C8 as amended: the tracker normalizes by a single reversal of its input
(once per construction), not by sorting: the internal list relates to the
reversed input candle by candle (timestamps added, nothing else changed), and
it is in chronological oldest-first order precisely when the input was given
newest-first (strictly decreasing parsed timestamps); for other orderings of
the same multiset the mitigation fields can differ. -/
theorem mkMitigationDetector_reversal_chronological (cs : List Candle)
    (d : MitigationDetector) (h : mkMitigationDetector cs = .ok d) :
    List.Forall₂ stamped cs.reverse d.candles ∧
    ((cs.map parsedTs).Chain' (fun a b => b < a) →
      (d.candles.map tsVal).Chain' (fun a b => a < b)) := by
  have hst : stampAll cs.reverse = .ok d.candles := by
    unfold mkMitigationDetector at h
    cases hs : stampAll cs.reverse with
    | error e => rw [hs] at h; cases h
    | ok r =>
        rw [hs] at h
        injection h with h
        rw [← h]
  have hf : List.Forall₂ stamped cs.reverse d.candles := stampAll_ok_forall₂ hst
  refine ⟨hf, ?_⟩
  intro hchain
  rw [forall₂_stamped_map_ts hf, List.map_reverse, List.chain'_reverse]
  exact hchain

/-- Witness for the amended C8: a concrete strictly-decreasing (newest-first)
two-candle input yields a chronological internal list. -/
theorem mkMitigationDetector_reversal_chronological_witness :
    List.Forall₂ stamped ([exQ, exP] : List Candle).reverse exD3.candles ∧
    (exD3.candles.map tsVal).Chain' (fun a b => a < b) := by
  have h := mkMitigationDetector_reversal_chronological [exQ, exP] exD3 rfl
  exact ⟨h.1, h.2 (by
    norm_num [parsedTs, strptime, exQ, exP, List.chain'_cons, List.chain'_singleton])⟩

/-! ## Claim C9 -/

theorem nearDup_symm {a b : Fvg} (h : nearDup a b) : nearDup b a := by
  obtain ⟨h1, h2, h3⟩ := h
  exact ⟨h1.symm, by rw [abs_sub_comm]; exact h2, h3.symm⟩

theorem nearDup_congr {a a' b b' : Fvg} (ha : dedupKey a' = dedupKey a)
    (hb : dedupKey b' = dedupKey b) : nearDup a b ↔ nearDup a' b' := by
  simp only [dedupKey, Prod.mk.injEq] at ha hb
  obtain ⟨ha1, ha2, ha3⟩ := ha
  obtain ⟨hb1, hb2, hb3⟩ := hb
  unfold nearDup
  rw [ha1, hb1, ha2, hb2, ha3, hb3]

theorem isUniqueFvg_true_iff {f : Fvg} {l : List Fvg} :
    isUniqueFvg f l = true ↔ ∀ e ∈ l, ¬ nearDup e f := by
  unfold isUniqueFvg nearDup
  rw [Bool.not_eq_true', List.any_eq_false]
  simp [pyAbs_eq_abs]

theorem dedupExtend_pairwise : ∀ (l : List Fvg) (acc : List Fvg),
    acc.Pairwise (fun a b => ¬ nearDup a b) →
    (dedupExtend acc l).Pairwise (fun a b => ¬ nearDup a b)
  | [], _, h => h
  | f :: fs, acc, h => by
      unfold dedupExtend
      by_cases hu : isUniqueFvg f acc = true
      · rw [if_pos hu]
        refine dedupExtend_pairwise fs _ ?_
        rw [List.pairwise_append]
        refine ⟨h, by simp, ?_⟩
        intro a ha b hb
        rw [List.mem_singleton] at hb
        subst hb
        exact (isUniqueFvg_true_iff.mp hu) a ha
      · rw [if_neg hu]
        exact dedupExtend_pairwise fs acc h

theorem sortByTimeDesc_pairwise {l : List Fvg}
    (h : l.Pairwise fun a b => ¬ nearDup a b) :
    (sortByTimeDesc l).Pairwise fun a b => ¬ nearDup a b :=
  ((List.mergeSort_perm l _).pairwise_iff
    (fun hxy hnd => hxy (nearDup_symm hnd))).mpr h

theorem mitigationWalk_dedupKey {isB : Bool} {fct : ℚ} :
    ∀ (l : List Candle) (z ff : Bool) (fvg : Fvg),
      dedupKey (mitigationWalk isB fct l z ff fvg) = dedupKey fvg
  | [], _, _, _ => rfl
  | c :: l', z, ff, fvg => by
      cases hc : priceInGap isB fvg c with
      | true =>
          cases ff with
          | true =>
              have ih := @mitigationWalk_dedupKey isB fct l' true true
                { fvg with last_mitigation_time := some c.Time }
              simp only [mitigationWalk, hc]
              exact ih
          | false =>
              have ih := @mitigationWalk_dedupKey isB fct l' true true
                { fvg with status := some "mitigated",
                           first_mitigation_time := some c.Time,
                           time_to_mitigation := some ((tsVal c - fct) / 3600),
                           last_mitigation_time := some c.Time }
              simp only [mitigationWalk, hc]
              exact ih
      | false =>
          cases z with
          | true => simp [mitigationWalk, hc]
          | false =>
              have ih := @mitigationWalk_dedupKey isB fct l' false ff fvg
              simpa [mitigationWalk, hc] using ih

theorem checkFvgMitigation_dedupKey {d : MitigationDetector} {tf : ℚ} {isB : Bool}
    {fvg fvg' : Fvg} (h : checkFvgMitigation d tf isB fvg = .ok fvg') :
    dedupKey fvg' = dedupKey fvg := by
  unfold checkFvgMitigation at h
  simp only [] at h
  by_cases hst : (ensureStatusFields fvg).status = some "mitigated"
  · rw [if_pos hst] at h
    injection h with h
    rw [← h, ensureStatusFields_dedupKey]
  · rw [if_neg hst] at h
    cases hts : strptime (ensureStatusFields fvg).time with
    | error e => rw [hts] at h; cases h
    | ok t0 =>
        rw [hts] at h
        injection h with h
        rw [← h, mitigationWalk_dedupKey, ensureStatusFields_dedupKey]

theorem forall₂_exists_left {α β : Type _} {R : α → β → Prop} :
    ∀ {l : List α} {l' : List β}, List.Forall₂ R l l' → ∀ b ∈ l', ∃ a ∈ l, R a b := by
  intro l l' h
  induction h with
  | nil => intro b hb; cases hb
  | cons hab _ ih =>
      intro b hb
      rcases List.mem_cons.mp hb with rfl | hb
      · exact ⟨_, List.mem_cons_self _ _, hab⟩
      · obtain ⟨a, ha, hr⟩ := ih b hb
        exact ⟨a, List.mem_cons_of_mem _ ha, hr⟩

theorem pairwise_of_forall₂_dedupKey :
    ∀ {l l' : List Fvg}, List.Forall₂ (fun a b => dedupKey b = dedupKey a) l l' →
      l.Pairwise (fun a b => ¬ nearDup a b) →
      l'.Pairwise (fun a b => ¬ nearDup a b) := by
  intro l l' hf
  induction hf with
  | nil => intro _; exact .nil
  | cons hab htail ih =>
      intro hp
      rcases List.pairwise_cons.mp hp with ⟨hhead, htl⟩
      refine List.pairwise_cons.mpr ⟨?_, ih htl⟩
      intro b' hb'
      obtain ⟨b, hbmem, hkey⟩ := forall₂_exists_left htail b' hb'
      intro hnd
      exact hhead b hbmem ((nearDup_congr hab hkey).mpr hnd)

theorem checkMitigations_pairwise {d : MitigationDetector} {b1 b2 b1' b2' : List Fvg}
    (h : checkMitigations d b1 b2 = .ok (b1', b2'))
    (h1 : b1.Pairwise fun a b => ¬ nearDup a b)
    (h2 : b2.Pairwise fun a b => ¬ nearDup a b) :
    (b1'.Pairwise fun a b => ¬ nearDup a b) ∧
    (b2'.Pairwise fun a b => ¬ nearDup a b) := by
  unfold checkMitigations at h
  by_cases hlen : d.candles.length < 2
  · rw [if_pos hlen] at h
    injection h with h
    have e1 : b1 = b1' := congrArg Prod.fst h
    have e2 : b2 = b2' := congrArg Prod.snd h
    rw [← e1, ← e2]
    exact ⟨h1, h2⟩
  · rw [if_neg hlen] at h
    simp only [] at h
    cases hm1 : mapExcept (checkFvgMitigation d (getTimeframeSeconds d) true) b1 with
    | error e => rw [hm1] at h; cases h
    | ok bull' =>
        rw [hm1] at h
        cases hm2 : mapExcept (checkFvgMitigation d (getTimeframeSeconds d) false) b2 with
        | error e => rw [hm2] at h; cases h
        | ok bear' =>
            rw [hm2] at h
            injection h with h
            have e1 : bull' = b1' := congrArg Prod.fst h
            have e2 : bear' = b2' := congrArg Prod.snd h
            rw [← e1, ← e2]
            constructor
            · exact pairwise_of_forall₂_dedupKey
                ((mapExcept_ok_forall₂ hm1).imp
                  (fun a b hab => checkFvgMitigation_dedupKey hab)) h1
            · exact pairwise_of_forall₂_dedupKey
                ((mapExcept_ok_forall₂ hm2).imp
                  (fun a b hab => checkFvgMitigation_dedupKey hab)) h2

/-- C9: each side of the engine's computed output contains no two gap records
with the same `time`, the same `type`, and `gap_size` values within 0.0001 of
each other: `_is_unique_fvg` filters each accepted record against everything
accepted before it, sorting and truncation preserve the property, and the
mitigation pass never touches the `time`/`type`/`gap_size` fields. In
particular a 3-candle pattern seen twice (e.g. by overlapping batches) leaves
only one gap in the final output. -/
theorem collectAllFvgs_no_near_duplicates
    (hF : Option CollectResult → String) (hC : List Candle → String)
    (cache : EngineCache) (now : ℚ) (tf sd : String)
    (batch : List Candle) (target : ℕ) (res : CollectResult)
    (hmiss : getCachedResults hF hC cache now = none)
    (hok : collectAllFvgs hF hC cache now tf sd batch target = .ok res) :
    (res.bullish_fvgs.Pairwise fun a b => ¬ nearDup a b) ∧
    (res.bearish_fvgs.Pairwise fun a b => ¬ nearDup a b) := by
  unfold collectAllFvgs at hok
  rw [hmiss] at hok
  dsimp only at hok
  by_cases hemp : batch.isEmpty = true
  · rw [if_pos hemp] at hok
    injection hok with hok
    rw [← hok]
    exact ⟨.nil, .nil⟩
  · rw [if_neg hemp] at hok
    cases hd : mkMitigationDetector batch with
    | error e => rw [hd] at hok; cases hok
    | ok d =>
        rw [hd] at hok
        dsimp only at hok
        cases hdet : detectFvgsOnly batch with
        | mk bullishBatch bearishBatch =>
            rw [hdet] at hok
            dsimp only at hok
            cases hcm : checkMitigations d
                ((sortByTimeDesc (dedupExtend [] bullishBatch)).take target)
                ((sortByTimeDesc (dedupExtend [] bearishBatch)).take target) with
            | error e => rw [hcm] at hok; cases hok
            | ok pair =>
                cases pair with
                | mk bull bear =>
                    rw [hcm] at hok
                    dsimp only at hok
                    injection hok with hok
                    have hp1 : ((sortByTimeDesc (dedupExtend [] bullishBatch)).take
                        target).Pairwise (fun a b => ¬ nearDup a b) :=
                      List.Pairwise.sublist (List.take_sublist _ _)
                        (sortByTimeDesc_pairwise
                          (dedupExtend_pairwise bullishBatch [] (by simp)))
                    have hp2 : ((sortByTimeDesc (dedupExtend [] bearishBatch)).take
                        target).Pairwise (fun a b => ¬ nearDup a b) :=
                      List.Pairwise.sublist (List.take_sublist _ _)
                        (sortByTimeDesc_pairwise
                          (dedupExtend_pairwise bearishBatch [] (by simp)))
                    have hres := checkMitigations_pairwise hcm hp1 hp2
                    rw [← hok]
                    exact hres

/-- Witness for C9 on a concrete cache-missing run with an empty batch. -/
theorem collectAllFvgs_no_near_duplicates_witness :
    ((createEmptyResults "M3" "2024-01-01").bullish_fvgs.Pairwise
      fun a b => ¬ nearDup a b) ∧
    ((createEmptyResults "M3" "2024-01-01").bearish_fvgs.Pairwise
      fun a b => ¬ nearDup a b) :=
  collectAllFvgs_no_near_duplicates exHashF exHashC exInitCache 0 "M3" "2024-01-01"
    [] 20 (createEmptyResults "M3" "2024-01-01") rfl rfl

end FVG
